import Mathlib

/-!
# FFmpegInteropMSS: stream enumeration and the four MSS handlers

A shallow embedding of `src/FFmpegInterop/FFmpegInteropMSS.cpp`.

* Calls that leave the adapter (to the MSS, to a sample provider, to the codec
  library) and the acquisition/release of `m_lock` are recorded, in program order,
  in a list of `Event`s.
* What the environment answers (the result of `avformat_seek_file`, whether the
  `StreamFactory` throws, what `GetSample` throws, ...) is an explicit argument.
* `int64_t` values are `Int`; the one addition the source performs on them is
  reduced to the signed 64-bit range explicitly (`wrapInt64`).
* The sample-provider methods `Select`, `Deselect`, `OnSeek`, `NotifyEOF` and the MSS
  methods `AddStreamDescriptor`, `SetActualStartPosition`, `NotifyError` are taken to
  return normally; the failures the source itself provides for (`THROW_HR_IF`,
  `THROW_HR_IF_FFMPEG_FAILED`, `std::map::at`, a throwing `StreamFactory`, a throwing
  `GetSample`) are modelled.
* Trace logging (`TraceLoggingWrite`, the activity loggers), reading the arguments of
  an event (`args.Request()`, `request.StartPosition()`, ...) and the `WINRT_ASSERT`s of
  the handlers, which perform no action, are not recorded.
-/

namespace FFmpegInterop

/-! ## Data model -/

/-- The cases of `stream->codecpar->codec_type` that the `switch` in
`InitFFmpegContext` tells apart; `other` is its `default:` label. -/
inductive AVMediaType
  | audio
  | video
  | subtitle
  | other
  deriving DecidableEq, Repr

/-- The two fields of an `AVStream` that `InitFFmpegContext` reads.  `disposition` is
the bit field of `AV_DISPOSITION_*` flags. -/
structure AVStream where
  codec_type : AVMediaType
  disposition : Nat
  deriving DecidableEq, Repr

/-- Modelled from the spec: the constant `AV_DISPOSITION_ATTACHED_PIC` is declared in
the codec library's headers, not under src/.  The spec calls it the disposition bit
that indicates attached cover art; in libavformat it is the single bit `0x0400`. -/
def AV_DISPOSITION_ATTACHED_PIC : Nat := 0x0400

/-- A sample provider as returned by the `StreamFactory`: it is identified by the
kind of stream it was created for and by the index of that stream. -/
structure SampleProvider where
  kind : AVMediaType
  streamIndex : Nat
  deriving DecidableEq, Repr

/-- A stream descriptor as returned by the `StreamFactory` (an audio, video or
timed-metadata descriptor), identified like the provider created along with it. -/
structure IMediaStreamDescriptor where
  kind : AVMediaType
  streamIndex : Nat
  deriving DecidableEq, Repr

/-- Values of `MediaStreamSourceErrorStatus` that the source passes to `NotifyError`. -/
inductive MediaStreamSourceErrorStatus
  | Other
  | UnsupportedMediaFormat
  deriving DecidableEq, Repr

/-- The four event registrations that `OnClosed` revokes. -/
inductive Handler
  | Starting
  | SampleRequested
  | SwitchStreamsRequested
  | Closed
  deriving DecidableEq, Repr

/-- Observable actions, in the order the source performs them. -/
inductive Event
  /-- Source: `stream->discard = AVDISCARD_ALL` -/
  | setDiscardAll (streamIndex : Nat)
  /-- Source: `mss.AddStreamDescriptor(d)` -/
  | addStreamDescriptor (d : IMediaStreamDescriptor)
  /-- Source: `provider->Select()` -/
  | select (p : SampleProvider)
  /-- Source: `provider->Deselect()` -/
  | deselect (p : SampleProvider)
  /-- Source: `SetMSSThumbnail(mss, stream)` -/
  | setMSSThumbnail (streamIndex : Nat)
  /-- construction of `lock_guard<mutex> lock{ m_lock }` -/
  | lock
  /-- destruction of the `lock_guard` at the end of its scope -/
  | unlock
  /-- Source: `avformat_seek_file(ctx, stream_index, min_ts, ts, max_ts, flags)` -/
  | seekFile (stream_index min_ts ts max_ts flags : Int)
  /-- Source: `provider->OnSeek(hns)` -/
  | onSeek (p : SampleProvider) (hns : Int)
  /-- Source: `request.SetActualStartPosition(hns)` -/
  | setActualStartPosition (hns : Int)
  /-- Source: `mss.NotifyError(status)` -/
  | notifyError (status : MediaStreamSourceErrorStatus)
  /-- Source: `provider->GetSample(request)` -/
  | getSample (p : SampleProvider)
  /-- Source: `provider->NotifyEOF()` -/
  | notifyEOF (p : SampleProvider)
  /-- Source: `m_fileStream = nullptr` -/
  | releaseFileStream
  /-- Source: `mss.Starting(token)`, `mss.SampleRequested(token)`, ... : revoke a handler -/
  | unregisterHandler (h : Handler)
  deriving DecidableEq, Repr

/-- What a `try` block can end with. -/
inductive Thrown
  /-- Thrown by `THROW_HR_IF(hr, ...)` -/
  | hresult (hr : Int)
  /-- Thrown by `THROW_HR_IF_FFMPEG_FAILED(averror)` with `averror < 0` -/
  | ffmpeg (averror : Int)
  /-- the `StreamFactory` threw while creating the provider of stream `streamIndex` -/
  | streamFactory (streamIndex : Nat)
  /-- Exception `std::out_of_range` thrown by `std::map::at` -/
  | outOfRange
  deriving DecidableEq, Repr

/-! ## `InitFFmpegContext`: stream enumeration -/

/-- What the environment answers during `InitFFmpegContext`. -/
structure InitEnv where
  /-- return value of `avformat_find_stream_info` -/
  findStreamInfoResult : Int
  /-- return value of `av_find_best_stream(..., AVMEDIA_TYPE_AUDIO, ...)` -/
  preferredAudioStreamId : Int
  /-- return value of `av_find_best_stream(..., AVMEDIA_TYPE_VIDEO, ...)` -/
  preferredVideoStreamId : Int
  /-- Result of `ApiInformation::IsTypePresent(L"...TimedMetadataStreamDescriptor")` -/
  timedMetadataPresent : Bool
  /-- whether the `StreamFactory` throws when asked for the provider of stream `i` -/
  factoryThrows : Nat → Bool

/-- The locals of `InitFFmpegContext` that live across loop iterations, the two maps
of the adapter, and the actions performed so far. -/
structure InitState where
  hasAudio : Bool
  hasVideo : Bool
  pendingAudioStreamDescriptors : List IMediaStreamDescriptor
  pendingVideoStreamDescriptors : List IMediaStreamDescriptor
  /-- Member `m_streamIdMap`, entries in insertion order (the keys are inserted ascending) -/
  m_streamIdMap : List (Nat × SampleProvider)
  /-- Member `m_streamDescriptorMap`, entries in insertion order (every key is fresh) -/
  m_streamDescriptorMap : List (IMediaStreamDescriptor × SampleProvider)
  log : List Event
  deriving DecidableEq, Repr

/-- State on entry to the loop (source lines 207-210). -/
def InitState.initial : InitState :=
  { hasAudio := false, hasVideo := false,
    pendingAudioStreamDescriptors := [], pendingVideoStreamDescriptors := [],
    m_streamIdMap := [], m_streamDescriptorMap := [], log := [] }

/-- Lines 330-332: `m_streamIdMap[i] = sampleProvider.get();`
`m_streamDescriptorMap[move(streamDescriptor)] = move(sampleProvider);` -/
def addToMaps (s : InitState) (i : Nat) (p : SampleProvider) (d : IMediaStreamDescriptor) :
    InitState :=
  { s with m_streamIdMap := s.m_streamIdMap ++ [(i, p)],
           m_streamDescriptorMap := s.m_streamDescriptorMap ++ [(d, p)] }

/-- Lines 228-251, after `CreateAudioStream` has returned `(p, d)` for stream `i`.
The source compares the `int` preferred index with the `unsigned int` loop counter; the
conversion this implies can only matter for a negative preferred index, for which the
third disjunct holds anyway (`preferred_test_conversion`). -/
def registerAudio (preferredAudioStreamId : Int) (s : InitState) (i : Nat)
    (p : SampleProvider) (d : IMediaStreamDescriptor) : InitState :=
  if s.hasAudio || preferredAudioStreamId == (i : Int) || preferredAudioStreamId < 0 then
    -- mss.AddStreamDescriptor(streamDescriptor);
    let s1 := { s with log := s.log ++ [Event.addStreamDescriptor d] }
    if !s1.hasAudio then
      -- hasAudio = true; sampleProvider->Select(); flush and clear the pending list
      { s1 with hasAudio := true,
                log := s1.log ++ [Event.select p]
                  ++ s1.pendingAudioStreamDescriptors.map Event.addStreamDescriptor,
                pendingAudioStreamDescriptors := [] }
    else s1
  else
    { s with pendingAudioStreamDescriptors := s.pendingAudioStreamDescriptors ++ [d] }

/-- Lines 265-288, after `CreateVideoStream` has returned `(p, d)` for stream `i`. -/
def registerVideo (preferredVideoStreamId : Int) (s : InitState) (i : Nat)
    (p : SampleProvider) (d : IMediaStreamDescriptor) : InitState :=
  if s.hasVideo || preferredVideoStreamId == (i : Int) || preferredVideoStreamId < 0 then
    let s1 := { s with log := s.log ++ [Event.addStreamDescriptor d] }
    if !s1.hasVideo then
      { s1 with hasVideo := true,
                log := s1.log ++ [Event.select p]
                  ++ s1.pendingVideoStreamDescriptors.map Event.addStreamDescriptor,
                pendingVideoStreamDescriptors := [] }
    else s1
  else
    { s with pendingVideoStreamDescriptors := s.pendingVideoStreamDescriptors ++ [d] }

/-- One iteration of the `for` loop (lines 214-332) for stream `i`.  The second
component is `some _` when the iteration is left by an exception that
`InitFFmpegContext` does not catch. -/
def loopBody (env : InitEnv) (i : Nat) (stream : AVStream) (s : InitState) :
    InitState × Option Thrown :=
  -- stream->discard = AVDISCARD_ALL;
  let s0 := { s with log := s.log ++ [Event.setDiscardAll i] }
  match stream.codec_type with
  | .audio =>
      if env.factoryThrows i then (s0, some (Thrown.streamFactory i))
      else
        let p : SampleProvider := ⟨.audio, i⟩
        let d : IMediaStreamDescriptor := ⟨.audio, i⟩
        (addToMaps (registerAudio env.preferredAudioStreamId s0 i p d) i p d, none)
  | .video =>
      if stream.disposition == AV_DISPOSITION_ATTACHED_PIC then
        -- SetMSSThumbnail(mss, stream); continue;
        ({ s0 with log := s0.log ++ [Event.setMSSThumbnail i] }, none)
      else if env.factoryThrows i then (s0, some (Thrown.streamFactory i))
      else
        let p : SampleProvider := ⟨.video, i⟩
        let d : IMediaStreamDescriptor := ⟨.video, i⟩
        (addToMaps (registerVideo env.preferredVideoStreamId s0 i p d) i p d, none)
  | .subtitle =>
      if !env.timedMetadataPresent then (s0, none)        -- continue;
      else if env.factoryThrows i then (s0, none)          -- catch (...) { continue; }
      else
        let p : SampleProvider := ⟨.subtitle, i⟩
        let d : IMediaStreamDescriptor := ⟨.subtitle, i⟩
        (addToMaps { s0 with log := s0.log ++ [Event.addStreamDescriptor d] } i p d, none)
  | .other => (s0, none)                                   -- default: continue;

/-- The `for` loop of lines 212-333 over the streams from index `i` on. -/
def enumerateFrom (env : InitEnv) : Nat → List AVStream → InitState → InitState × Option Thrown
  | _, [], s => (s, none)
  | i, stream :: rest, s =>
      match loopBody env i stream s with
      | (s1, none) => enumerateFrom env (i + 1) rest s1
      | (s1, some e) => (s1, some e)

/-- Function `InitFFmpegContext` from line 203 to the end of the enumeration loop, where the
two `WINRT_ASSERT`s of lines 335-336 stand.  `streams` is `m_formatContext->streams`.
The result is the state reached and, if the function was left by an exception, what
was thrown.  Lines 338-360 (duration, metadata, handler registration) follow the
point these results are about and are not modelled. -/
def InitFFmpegContext (env : InitEnv) (streams : List AVStream) : InitState × Option Thrown :=
  if env.findStreamInfoResult < 0 then
    (InitState.initial, some (Thrown.ffmpeg env.findStreamInfoResult))
  else enumerateFrom env 0 streams InitState.initial

/-- The condition of `WINRT_ASSERT(pendingAudioStreamDescriptors.empty())` and
`WINRT_ASSERT(pendingVideoStreamDescriptors.empty())` (lines 335-336). -/
def pendingListsEmpty (s : InitState) : Bool :=
  s.pendingAudioStreamDescriptors.isEmpty && s.pendingVideoStreamDescriptors.isEmpty

/-! ### Observations on the result of the enumeration -/

/-- Stream indices of the descriptors of kind `T` passed to `AddStreamDescriptor`, in
call order. -/
def addedOf (T : AVMediaType) (log : List Event) : List Nat :=
  log.filterMap fun e =>
    match e with
    | .addStreamDescriptor d => if d.kind = T then some d.streamIndex else none
    | _ => none

/-- Stream indices of the providers of kind `T` on which `Select` was called, in call
order. -/
def selectedOf (T : AVMediaType) (log : List Event) : List Nat :=
  log.filterMap fun e =>
    match e with
    | .select p => if p.kind = T then some p.streamIndex else none
    | _ => none

/-- Stream indices of the descriptors of kind `T` that are keys of
`m_streamDescriptorMap`, i.e. of the streams of that kind for which a provider and a
descriptor were created. -/
def createdOf (T : AVMediaType) (s : InitState) : List Nat :=
  s.m_streamDescriptorMap.filterMap fun e => if e.1.kind = T then some e.1.streamIndex else none

/-- Whether the loop body asks the `StreamFactory` for an audio (`T = audio`) or video
(`T = video`) provider for this stream: every audio stream, and every video stream that
the test of line 257 does not divert to the thumbnail. -/
def reachesFactory (T : AVMediaType) (stream : AVStream) : Bool :=
  match T with
  | .audio => stream.codec_type == .audio
  | .video => stream.codec_type == .video && !(stream.disposition == AV_DISPOSITION_ATTACHED_PIC)
  | _ => false

/-- Indices, ascending, of the streams for which the loop body asks the factory for a
provider of kind `T`. -/
def factoryIndices (T : AVMediaType) (streams : List AVStream) : List Nat :=
  (List.range streams.length).filter fun i =>
    match streams[i]? with
    | some st => reachesFactory T st
    | none => false

/-! ## The MSS handlers -/

/-- The members of the adapter that the handlers read. -/
structure FFmpegInteropMSS where
  /-- Member `m_formatContext->duration`, in `AV_TIME_BASE` units -/
  duration : Int
  /-- Member `m_formatContext->start_time`, in `AV_TIME_BASE` units -/
  start_time : Int
  /-- Member `m_streamIdMap`, one entry per key, in key order -/
  m_streamIdMap : List (Nat × SampleProvider)
  /-- Member `m_streamDescriptorMap`, one entry per key -/
  m_streamDescriptorMap : List (IMediaStreamDescriptor × SampleProvider)
  deriving DecidableEq, Repr

/-- Value of `numeric_limits<int64_t>::min()`. -/
def INT64_MIN : Int := -9223372036854775808

/-- Modelled from the spec: `AV_NOPTS_VALUE` is declared in the codec library's headers,
not under src/.  It is the spec's "no value" for `start_time`; in libavutil it is
`0x8000000000000000` read as `int64_t`. -/
def AV_NOPTS_VALUE : Int := -9223372036854775808

/-- Modelled from the spec: `HNS_PER_SEC` is declared in a header that is not under
src/.  Host time units are 100-ns ticks, ten million to the second. -/
def HNS_PER_SEC : Int := 10000000

/-- A rational number as the codec library represents it (`AVRational`). -/
structure AVRational where
  num : Int
  den : Int
  deriving DecidableEq, Repr

/-- Modelled from the spec: `av_get_time_base_q()` belongs to the codec library.  The
codec time base is microseconds, `1/1000000`. -/
def av_get_time_base_q : AVRational := ⟨1, 1000000⟩

/-- Modelled from the spec: `ConvertToAVTime` is declared in a header that is not under
src/.  The spec has it convert a time in `units` (of which `unitsPerSec` make a second)
to the codec time base, exactly for every value representable in both: there it is the
quotient `units / (unitsPerSec * timeBase)`.  Neither the source nor the spec says how a
quotient that is not an integer is rounded; the definition truncates it toward zero so
as to be total, and no result below uses its value at such an argument. -/
def ConvertToAVTime (units unitsPerSec : Int) (timeBase : AVRational) : Int :=
  Int.tdiv (units * timeBase.den) (unitsPerSec * timeBase.num)

/-- Constant `MF_E_INVALID_TIMESTAMP`, `0xC00D36C0` read as a signed 32-bit `HRESULT`. -/
def MF_E_INVALID_TIMESTAMP : Int := -1072875840

/-- Constant `MF_E_END_OF_STREAM`, `0xC00D3E84` read as a signed 32-bit `HRESULT`. -/
def MF_E_END_OF_STREAM : Int := -1072873852

/-- Constant `E_BOUNDS`, `0x8000000B` read as a signed 32-bit `HRESULT`: what `to_hresult()`
yields for a `std::out_of_range`. -/
def E_BOUNDS : Int := -2147483637

/-- Reduction of an integer to the range of `int64_t` (two's complement). -/
def wrapInt64 (x : Int) : Int := (x + 9223372036854775808) % 18446744073709551616 - 9223372036854775808

/-- The `try` block of `OnStarting` (lines 381-400) for the start position
`hnsSeekTime`: the actions performed and how the block is left.  `seekResult` is what
`avformat_seek_file` returns. -/
def OnStartingTry (a : FFmpegInteropMSS) (hnsSeekTime : Int) (seekResult : Int) :
    List Event × Option Thrown :=
  -- int64_t avSeekTime{ ConvertToAVTime(hnsSeekTime.count(), HNS_PER_SEC, av_get_time_base_q()) };
  let avSeekTime := ConvertToAVTime hnsSeekTime HNS_PER_SEC av_get_time_base_q
  -- THROW_HR_IF(MF_E_INVALID_TIMESTAMP, avSeekTime > m_formatContext->duration);
  if avSeekTime > a.duration then ([], some (Thrown.hresult MF_E_INVALID_TIMESTAMP))
  else
    -- if (start_time != AV_NOPTS_VALUE) avSeekTime += start_time;
    let avSeekTime :=
      if a.start_time != AV_NOPTS_VALUE then wrapInt64 (avSeekTime + a.start_time)
      else avSeekTime
    let seek := Event.seekFile (-1) INT64_MIN avSeekTime avSeekTime 0
    -- THROW_HR_IF_FFMPEG_FAILED(avformat_seek_file(...));
    if seekResult < 0 then ([seek], some (Thrown.ffmpeg seekResult))
    else
      (seek :: a.m_streamIdMap.map (fun e => Event.onSeek e.2 hnsSeekTime)
          ++ [Event.setActualStartPosition hnsSeekTime], none)

/-- Handler `OnStarting` (lines 363-412).  `startPosition` is `request.StartPosition()`, `none`
for a null reference. -/
def OnStarting (a : FFmpegInteropMSS) (startPosition : Option Int) (seekResult : Int) :
    List Event :=
  match startPosition with
  | some hnsSeekTime =>
      -- lock_guard<mutex> lock{ m_lock }; try { ... } catch (...) { NotifyError(Other); }
      [Event.lock] ++ (OnStartingTry a hnsSeekTime seekResult).1
        ++ (match (OnStartingTry a hnsSeekTime seekResult).2 with
            | none => []
            | some _ => [Event.notifyError .Other])
        ++ [Event.unlock]
  | none => []   -- resume: only trace logging

/-- The `try` block of `OnSampleRequested` (line 425).  `getSampleResult p` is `none`
when `p->GetSample(request)` returns and `some hr` when it throws an exception that
`to_hresult()` reports as `hr`.  The second component is `none` when the block
completes and otherwise the `HRESULT` that `to_hresult()` yields in the handler. -/
def OnSampleRequestedTry (a : FFmpegInteropMSS) (streamDescriptor : IMediaStreamDescriptor)
    (getSampleResult : SampleProvider → Option Int) : List Event × Option Int :=
  match a.m_streamDescriptorMap.lookup streamDescriptor with
  | none => ([], some E_BOUNDS)   -- m_streamDescriptorMap.at throws std::out_of_range
  | some p => ([Event.getSample p], getSampleResult p)

/-- Handler `OnSampleRequested` (lines 414-447). -/
def OnSampleRequested (a : FFmpegInteropMSS) (streamDescriptor : IMediaStreamDescriptor)
    (getSampleResult : SampleProvider → Option Int) : List Event :=
  [Event.lock] ++ (OnSampleRequestedTry a streamDescriptor getSampleResult).1
    ++ (match (OnSampleRequestedTry a streamDescriptor getSampleResult).2 with
        | none => []
        | some hr =>
            if hr == MF_E_END_OF_STREAM then
              a.m_streamIdMap.map (fun e => Event.notifyEOF e.2)
            else [Event.notifyError .Other])
    ++ [Event.unlock]

/-- The `try` block of `OnSwitchStreamsRequested` (lines 464-472); a descriptor is
`none` for a null reference. -/
def OnSwitchStreamsRequestedTry (a : FFmpegInteropMSS)
    (oldStreamDescriptor newStreamDescriptor : Option IMediaStreamDescriptor) :
    List Event × Option Thrown :=
  let deselected : List Event × Option Thrown :=
    match oldStreamDescriptor with
    | none => ([], none)
    | some d =>
        match a.m_streamDescriptorMap.lookup d with
        | none => ([], some Thrown.outOfRange)
        | some p => ([Event.deselect p], none)
  match deselected.2 with
  | some e => (deselected.1, some e)
  | none =>
      match newStreamDescriptor with
      | none => (deselected.1, none)
      | some d =>
          match a.m_streamDescriptorMap.lookup d with
          | none => (deselected.1, some Thrown.outOfRange)
          | some p => (deselected.1 ++ [Event.select p], none)

/-- Handler `OnSwitchStreamsRequested` (lines 449-482).  The `WINRT_ASSERT`s are checks of debug
builds and perform no action. -/
def OnSwitchStreamsRequested (a : FFmpegInteropMSS)
    (oldStreamDescriptor newStreamDescriptor : Option IMediaStreamDescriptor) : List Event :=
  [Event.lock] ++ (OnSwitchStreamsRequestedTry a oldStreamDescriptor newStreamDescriptor).1
    ++ (match (OnSwitchStreamsRequestedTry a oldStreamDescriptor newStreamDescriptor).2 with
        | none => []
        | some _ => [Event.notifyError .Other])
    ++ [Event.unlock]

/-- Handler `OnClosed` (lines 484-502). -/
def OnClosed (_a : FFmpegInteropMSS) : List Event :=
  [Event.lock, Event.releaseFileStream,
   Event.unregisterHandler .Starting, Event.unregisterHandler .SampleRequested,
   Event.unregisterHandler .SwitchStreamsRequested, Event.unregisterHandler .Closed,
   Event.unlock]

/-! ### Observations on a handler's actions -/

/-- The providers on which `NotifyEOF` is called, in call order. -/
def notifyEOFCalls (t : List Event) : List SampleProvider :=
  t.filterMap fun e => match e with
    | .notifyEOF p => some p
    | _ => none

/-- The statuses passed to `NotifyError`, in call order. -/
def notifyErrorCalls (t : List Event) : List MediaStreamSourceErrorStatus :=
  t.filterMap fun e => match e with
    | .notifyError s => some s
    | _ => none

/-- The `OnSeek` and `SetActualStartPosition` calls, in call order. -/
def seekNotifications (t : List Event) : List Event :=
  t.filter fun e => match e with
    | .onSeek _ _ => true
    | .setActualStartPosition _ => true
    | _ => false

/-- The `avformat_seek_file` calls, in call order. -/
def seekCalls (t : List Event) : List Event :=
  t.filter fun e => match e with
    | .seekFile _ _ _ _ _ => true
    | _ => false

/-- The `Select` and `Deselect` calls, in call order. -/
def selectionCalls (t : List Event) : List Event :=
  t.filter fun e => match e with
    | .select _ => true
    | .deselect _ => true
    | _ => false

/-- A handler run that takes `m_lock` as its first action, releases it as its last and
neither takes nor releases it in between. -/
def HoldsLockThroughout (t : List Event) : Prop :=
  ∃ mid, t = Event.lock :: mid ++ [Event.unlock] ∧ Event.lock ∉ mid ∧ Event.unlock ∉ mid

/-- Value of `numeric_limits<int64_t>::max()`. -/
def INT64_MAX : Int := 9223372036854775807

/-- An adapter for a file of 60 s whose container start time is 2.5 s, with an audio
stream 0 and a video stream 1. -/
def exampleAdapter : FFmpegInteropMSS :=
  { duration := 60000000, start_time := 2500000,
    m_streamIdMap := [(0, ⟨.audio, 0⟩), (1, ⟨.video, 1⟩)],
    m_streamDescriptorMap := [(⟨.audio, 0⟩, ⟨.audio, 0⟩), (⟨.video, 1⟩, ⟨.video, 1⟩)] }

/-- The timestamp check lets the start position `P` through: the `try` block is not left
with `MF_E_INVALID_TIMESTAMP` and `avformat_seek_file` is called, once. -/
def SeekAccepted (a : FFmpegInteropMSS) (P seekResult : Int) : Prop :=
  (OnStartingTry a P seekResult).2 ≠ some (Thrown.hresult MF_E_INVALID_TIMESTAMP) ∧
  ∃ t, seekCalls (OnStarting a (some P) seekResult) = [Event.seekFile (-1) INT64_MIN t t 0]

/-- The timestamp check rejects the start position `P`: the `try` block is left with
`MF_E_INVALID_TIMESTAMP` before any action, and the handler only notifies the MSS of an
error with status `Other`. -/
def SeekRejected (a : FFmpegInteropMSS) (P seekResult : Int) : Prop :=
  OnStartingTry a P seekResult = ([], some (Thrown.hresult MF_E_INVALID_TIMESTAMP)) ∧
  OnStarting a (some P) seekResult =
    [Event.lock, Event.notifyError .Other, Event.unlock]

/-- The providers held by `m_streamIdMap`, in key order. -/
def FFmpegInteropMSS.providers (a : FFmpegInteropMSS) : List SampleProvider :=
  a.m_streamIdMap.map (·.2)

/-! ### The per-kind view of the enumeration

The audio branch and the video branch of the loop body run the same protocol on
disjoint locals.  A `Lane` is what one of them can see; `laneStep` is the protocol. -/

/-- The part of an `InitState` that concerns one kind of stream. -/
structure Lane where
  has : Bool
  pending : List Nat
  added : List Nat
  selected : List Nat
  created : List Nat
  deriving DecidableEq, Repr

/-- The lane before the first iteration. -/
def Lane.empty : Lane := ⟨false, [], [], [], []⟩

/-- The lane of kind `audio` or `video` of a state. -/
def lane (T : AVMediaType) (s : InitState) : Lane :=
  { has := if T = .audio then s.hasAudio else s.hasVideo,
    pending := (if T = .audio then s.pendingAudioStreamDescriptors
                else s.pendingVideoStreamDescriptors).map (·.streamIndex),
    added := addedOf T s.log,
    selected := selectedOf T s.log,
    created := createdOf T s }

/-- Effect on its lane of one iteration that creates a provider for stream `i`. -/
def laneStep (preferred : Int) (i : Nat) (l : Lane) : Lane :=
  if l.has || preferred == (i : Int) || preferred < 0 then
    if l.has then { l with added := l.added ++ [i], created := l.created ++ [i] }
    else { has := true, pending := [], added := l.added ++ [i] ++ l.pending,
           selected := l.selected ++ [i], created := l.created ++ [i] }
  else { l with pending := l.pending ++ [i], created := l.created ++ [i] }

/-- Iterated `laneStep` over the streams that satisfy `f`, indices counted from `i`. -/
def laneRun (preferred : Int) (f : Nat → AVStream → Bool) : Nat → List AVStream → Lane → Lane
  | _, [], l => l
  | i, st :: rest, l =>
      laneRun preferred f (i + 1) rest (if f i st then laneStep preferred i l else l)

/-- Whether the iteration for stream `i` creates a provider of kind `T`. -/
def creates (env : InitEnv) (T : AVMediaType) (i : Nat) (stream : AVStream) : Bool :=
  reachesFactory T stream && !env.factoryThrows i

/-- Indices, ascending, of the streams of `xs` that satisfy `f`. -/
def members (f : Nat → AVStream → Bool) (xs : List AVStream) : List Nat :=
  (List.range xs.length).filter fun i =>
    match xs[i]? with
    | some st => f i st
    | none => false

/-- What a lane looks like after the iterations for the streams `M` (ascending indices)
of its kind, for a preferred index `p`. -/
def LaneInv (p : Int) (M : List Nat) (L : Lane) : Prop :=
  L.created = M ∧
  (p < 0 → L.has = !M.isEmpty ∧ L.added = M ∧ L.selected = M.head?.toList ∧ L.pending = []) ∧
  (∀ q : Nat, p = (q : Int) →
    (q ∈ M → L.has = true ∧ L.added = q :: M.filter (· ≠ q) ∧ L.selected = [q] ∧
      L.pending = []) ∧
    (q ∉ M → L.has = false ∧ L.added = [] ∧ L.selected = [] ∧ L.pending = M))

/-- The pending lists hold descriptors of their own kind only. -/
def PendingKinds (s : InitState) : Prop :=
  (∀ d ∈ s.pendingAudioStreamDescriptors, d.kind = .audio) ∧
  (∀ d ∈ s.pendingVideoStreamDescriptors, d.kind = .video)

end FFmpegInterop

namespace FFmpegInterop

/-! ## The mixed-sign comparison of line 228 -/

/-- For a 32-bit `int` `p` and an `unsigned int` `i`, comparing after conversion of
`p` to unsigned, as C++ does, decides the test of lines 228 and 265 like comparing the
integers themselves. -/
theorem preferred_test_conversion (has : Bool) (p : Int) (i : Nat)
    (hp : -2147483648 ≤ p ∧ p < 2147483648) :
    (has || decide (p % 4294967296 = (i : Int)) || decide (p < 0)) =
      (has || p == (i : Int) || decide (p < 0)) := by
  by_cases hneg : p < 0
  · simp [hneg]
  · have hmod : p % 4294967296 = p := by omega
    have hb : (p == (i : Int)) = decide (p = (i : Int)) := rfl
    rw [hmod, hb]

/-! ## Lemmas on the observations -/

@[simp] theorem addedOf_append (T : AVMediaType) (a b : List Event) :
    addedOf T (a ++ b) = addedOf T a ++ addedOf T b := by
  simp [addedOf, List.filterMap_append]

@[simp] theorem selectedOf_append (T : AVMediaType) (a b : List Event) :
    selectedOf T (a ++ b) = selectedOf T a ++ selectedOf T b := by
  simp [selectedOf, List.filterMap_append]

@[simp] theorem addedOf_nil (T : AVMediaType) : addedOf T [] = [] := rfl

@[simp] theorem selectedOf_nil (T : AVMediaType) : selectedOf T [] = [] := rfl

@[simp] theorem addedOf_cons_add (T : AVMediaType) (d : IMediaStreamDescriptor)
    (l : List Event) :
    addedOf T (Event.addStreamDescriptor d :: l) =
      if d.kind = T then d.streamIndex :: addedOf T l else addedOf T l := by
  by_cases h : d.kind = T <;> simp [addedOf, List.filterMap_cons, h]

@[simp] theorem addedOf_cons_select (T : AVMediaType) (p : SampleProvider) (l : List Event) :
    addedOf T (Event.select p :: l) = addedOf T l := by
  simp [addedOf, List.filterMap_cons]

@[simp] theorem addedOf_cons_discard (T : AVMediaType) (i : Nat) (l : List Event) :
    addedOf T (Event.setDiscardAll i :: l) = addedOf T l := by
  simp [addedOf, List.filterMap_cons]

@[simp] theorem addedOf_cons_thumbnail (T : AVMediaType) (i : Nat) (l : List Event) :
    addedOf T (Event.setMSSThumbnail i :: l) = addedOf T l := by
  simp [addedOf, List.filterMap_cons]

@[simp] theorem selectedOf_cons_select (T : AVMediaType) (p : SampleProvider)
    (l : List Event) :
    selectedOf T (Event.select p :: l) =
      if p.kind = T then p.streamIndex :: selectedOf T l else selectedOf T l := by
  by_cases h : p.kind = T <;> simp [selectedOf, List.filterMap_cons, h]

@[simp] theorem selectedOf_cons_add (T : AVMediaType) (d : IMediaStreamDescriptor)
    (l : List Event) :
    selectedOf T (Event.addStreamDescriptor d :: l) = selectedOf T l := by
  simp [selectedOf, List.filterMap_cons]

@[simp] theorem selectedOf_cons_discard (T : AVMediaType) (i : Nat) (l : List Event) :
    selectedOf T (Event.setDiscardAll i :: l) = selectedOf T l := by
  simp [selectedOf, List.filterMap_cons]

@[simp] theorem selectedOf_cons_thumbnail (T : AVMediaType) (i : Nat) (l : List Event) :
    selectedOf T (Event.setMSSThumbnail i :: l) = selectedOf T l := by
  simp [selectedOf, List.filterMap_cons]

theorem addedOf_flush_same (T : AVMediaType) (ds : List IMediaStreamDescriptor)
    (h : ∀ d ∈ ds, d.kind = T) :
    addedOf T (ds.map Event.addStreamDescriptor) = ds.map (·.streamIndex) := by
  induction ds with
  | nil => rfl
  | cons d ds ih =>
      have hd : d.kind = T := h d (List.mem_cons_self _ _)
      have ih2 := ih (fun x hx => h x (List.mem_cons_of_mem _ hx))
      simp only [addedOf] at ih2
      simp [addedOf, List.filterMap_cons, hd, ih2]

theorem addedOf_flush_other (T U : AVMediaType) (ds : List IMediaStreamDescriptor)
    (h : ∀ d ∈ ds, d.kind = U) (hne : U ≠ T) :
    addedOf T (ds.map Event.addStreamDescriptor) = [] := by
  induction ds with
  | nil => rfl
  | cons d ds ih =>
      have hd : d.kind = U := h d (List.mem_cons_self _ _)
      have ih2 := ih (fun x hx => h x (List.mem_cons_of_mem _ hx))
      simp only [addedOf] at ih2
      simp [addedOf, List.filterMap_cons, hd, hne, ih2]

@[simp] theorem selectedOf_flush (T : AVMediaType) (ds : List IMediaStreamDescriptor) :
    selectedOf T (ds.map Event.addStreamDescriptor) = [] := by
  induction ds with
  | nil => rfl
  | cons d ds ih =>
      simp only [selectedOf] at ih
      simp [selectedOf, List.filterMap_cons, ih]

/-! ## The loop body acts on each lane as `laneStep` -/

theorem loopBody_lanes (env : InitEnv) (i : Nat) (st : AVStream) (s : InitState)
    (hwf : PendingKinds s) :
    PendingKinds (loopBody env i st s).1 ∧
    lane .audio (loopBody env i st s).1 =
      (if creates env .audio i st then laneStep env.preferredAudioStreamId i (lane .audio s)
       else lane .audio s) ∧
    lane .video (loopBody env i st s).1 =
      (if creates env .video i st then laneStep env.preferredVideoStreamId i (lane .video s)
       else lane .video s) := by
  obtain ⟨ha, hv⟩ := hwf
  obtain ⟨ct, disp⟩ := st
  cases ct
  · -- audio
    by_cases hthrow : env.factoryThrows i = true
    · simp [loopBody, hthrow, creates, reachesFactory, lane, addedOf, selectedOf, createdOf,
        PendingKinds, ha, hv]
      exact ⟨ha, hv⟩
    · simp only [Bool.not_eq_true] at hthrow
      have hflush := addedOf_flush_same .audio s.pendingAudioStreamDescriptors ha
      have hflush2 := addedOf_flush_other .video .audio s.pendingAudioStreamDescriptors ha
        (by decide)
      cases hhas : s.hasAudio <;>
      by_cases hp : (env.preferredAudioStreamId == (i : Int) || decide (env.preferredAudioStreamId < 0)) = true <;>
      simp [loopBody, hthrow, creates, reachesFactory, lane, registerAudio, addToMaps, laneStep,
        PendingKinds, hhas, hp, hflush, hflush2, createdOf, List.filterMap_append]
      all_goals first
        | exact ⟨ha, hv⟩
        | exact hv
        | exact ⟨fun d hd => hd.elim (ha d) (fun h => by rw [h]), hv⟩
  · -- video
    by_cases hpic : disp = AV_DISPOSITION_ATTACHED_PIC
    · simp [loopBody, hpic, creates, reachesFactory, lane, PendingKinds, createdOf]
      exact ⟨ha, hv⟩
    by_cases hthrow : env.factoryThrows i = true
    · simp [loopBody, hpic, hthrow, creates, reachesFactory, lane, PendingKinds, createdOf]
      exact ⟨ha, hv⟩
    · simp only [Bool.not_eq_true] at hthrow
      have hflush := addedOf_flush_same .video s.pendingVideoStreamDescriptors hv
      have hflush2 := addedOf_flush_other .audio .video s.pendingVideoStreamDescriptors hv
        (by decide)
      cases hhas : s.hasVideo <;>
      by_cases hp : (env.preferredVideoStreamId == (i : Int) || decide (env.preferredVideoStreamId < 0)) = true <;>
      simp [loopBody, hpic, hthrow, creates, reachesFactory, lane, registerVideo, addToMaps,
        laneStep, PendingKinds, hhas, hp, hflush, hflush2, createdOf, List.filterMap_append]
      all_goals first
        | exact ⟨ha, hv⟩
        | exact ha
        | exact ⟨ha, fun d hd => hd.elim (hv d) (fun h => by rw [h])⟩
  · -- subtitle
    cases hpres : env.timedMetadataPresent <;> cases hthrow : env.factoryThrows i <;>
    simp [loopBody, hpres, hthrow, creates, reachesFactory, lane, addToMaps, PendingKinds,
      createdOf, List.filterMap_append]
    all_goals exact ⟨ha, hv⟩
  · -- any other media type
    simp [loopBody, creates, reachesFactory, lane, PendingKinds, createdOf]
    exact ⟨ha, hv⟩

theorem loopBody_no_throw (env : InitEnv) (i : Nat) (st : AVStream) (s : InitState)
    (h : (loopBody env i st s).2 = none)
    (hreach : reachesFactory .audio st = true ∨ reachesFactory .video st = true) :
    env.factoryThrows i = false := by
  obtain ⟨ct, disp⟩ := st
  cases hthrow : env.factoryThrows i
  · rfl
  · cases ct <;> simp [loopBody, reachesFactory, hthrow] at h hreach
    simp [hreach] at h

/-- The enumeration runs the lane protocol on both lanes, over the `k` streams whose
iteration was entered. -/
theorem enumerateFrom_lanes (env : InitEnv) :
    ∀ (rest : List AVStream) (i : Nat) (s : InitState), PendingKinds s →
      ∃ k, k ≤ rest.length ∧
        ((enumerateFrom env i rest s).2 = none →
          k = rest.length ∧
          ∀ j st, rest[j]? = some st →
            (reachesFactory .audio st = true ∨ reachesFactory .video st = true) →
            env.factoryThrows (i + j) = false) ∧
        PendingKinds (enumerateFrom env i rest s).1 ∧
        lane .audio (enumerateFrom env i rest s).1 =
          laneRun env.preferredAudioStreamId (creates env .audio) i (rest.take k)
            (lane .audio s) ∧
        lane .video (enumerateFrom env i rest s).1 =
          laneRun env.preferredVideoStreamId (creates env .video) i (rest.take k)
            (lane .video s) := by
  intro rest
  induction rest with
  | nil =>
      intro i s hwf
      exact ⟨0, le_refl _, fun _ => ⟨rfl, fun j st hj => by simp at hj⟩, hwf, rfl, rfl⟩
  | cons st rest ih =>
      intro i s hwf
      obtain ⟨hwf1, haud, hvid⟩ := loopBody_lanes env i st s hwf
      have hnt := loopBody_no_throw env i st s
      rcases hbody : loopBody env i st s with ⟨s1, _ | e⟩
      · rw [hbody] at hwf1 haud hvid hnt
        obtain ⟨k, hk, hnone, hwf2, haud2, hvid2⟩ := ih (i + 1) s1 hwf1
        refine ⟨k + 1, by simpa using hk, ?_, ?_, ?_, ?_⟩
        · intro hres
          simp only [enumerateFrom, hbody] at hres
          obtain ⟨hkeq, hall⟩ := hnone hres
          refine ⟨by simp [hkeq], ?_⟩
          intro j st2 hj hreach
          cases j with
          | zero =>
              simp at hj
              subst hj
              simpa using hnt rfl hreach
          | succ j =>
              simp at hj
              have := hall j st2 hj hreach
              simpa [Nat.add_assoc, Nat.add_comm 1 j] using this
        · simpa only [enumerateFrom, hbody] using hwf2
        · simp only [enumerateFrom, hbody, List.take_succ_cons, laneRun]
          rw [haud2, haud]
        · simp only [enumerateFrom, hbody, List.take_succ_cons, laneRun]
          rw [hvid2, hvid]
      · rw [hbody] at hwf1 haud hvid
        refine ⟨1, by simp, ?_, ?_, ?_, ?_⟩
        · intro hres
          simp [enumerateFrom, hbody] at hres
        · simpa only [enumerateFrom, hbody] using hwf1
        · simp only [enumerateFrom, hbody, List.take_succ_cons, List.take_zero, laneRun]
          exact haud
        · simp only [enumerateFrom, hbody, List.take_succ_cons, List.take_zero, laneRun]
          exact hvid

theorem laneRun_append (p : Int) (f : Nat → AVStream → Bool) :
    ∀ (xs ys : List AVStream) (i : Nat) (l : Lane),
      laneRun p f i (xs ++ ys) l = laneRun p f (i + xs.length) ys (laneRun p f i xs l) := by
  intro xs
  induction xs with
  | nil => intro ys i l; simp [laneRun]
  | cons x xs ih =>
      intro ys i l
      show laneRun p f (i + 1) (xs ++ ys) (if f i x then laneStep p i l else l) =
        laneRun p f (i + (xs.length + 1)) ys
          (laneRun p f (i + 1) xs (if f i x then laneStep p i l else l))
      rw [ih, Nat.add_assoc, Nat.add_comm 1 xs.length]

theorem members_snoc (f : Nat → AVStream → Bool) (xs : List AVStream) (x : AVStream) :
    members f (xs ++ [x]) = members f xs ++ (if f xs.length x then [xs.length] else []) := by
  unfold members
  rw [List.length_append, List.length_singleton, List.range_succ, List.filter_append]
  congr 1
  · apply List.filter_congr
    intro i hi
    rw [List.mem_range] at hi
    rw [List.getElem?_append_left hi]
  · simp [List.filter_cons]

theorem members_lt (f : Nat → AVStream → Bool) (xs : List AVStream) :
    ∀ i ∈ members f xs, i < xs.length := by
  intro i hi
  unfold members at hi
  exact List.mem_range.mp (List.mem_filter.mp hi).1

theorem members_pairwise (f : Nat → AVStream → Bool) (xs : List AVStream) :
    (members f xs).Pairwise (· < ·) :=
  List.Pairwise.filter _ (List.pairwise_lt_range _)

theorem laneStep_inv (p : Int) (M : List Nat) (L : Lane) (n : Nat)
    (hlt : ∀ i ∈ M, i < n) (h : LaneInv p M L) : LaneInv p (M ++ [n]) (laneStep p n L) := by
  obtain ⟨hc, hneg, hpos⟩ := h
  refine ⟨?_, ?_, ?_⟩
  · unfold laneStep
    split <;> [split; skip] <;> simp [hc]
  · intro hp
    obtain ⟨hhas, hadd, hsel, hpend⟩ := hneg hp
    cases M with
    | nil =>
        simp at hhas
        simp [laneStep, hhas, hp, hadd, hsel, hpend]
    | cons m M =>
        simp at hhas
        simp [laneStep, hhas, hp, hadd, hsel, hpend]
  · intro q hq
    obtain ⟨hin, hout⟩ := hpos q hq
    constructor
    · intro hmem
      rw [List.mem_append, List.mem_singleton] at hmem
      by_cases hqM : q ∈ M
      · obtain ⟨hhas, hadd, hsel, hpend⟩ := hin hqM
        have hne : n ≠ q := (Nat.ne_of_lt (hlt q hqM)).symm
        simp [laneStep, hhas, hadd, hsel, hpend, List.filter_append, hne]
      · obtain ⟨hhas, hadd, hsel, hpend⟩ := hout hqM
        have hqn : q = n := hmem.resolve_left hqM
        subst hqn
        have hfilter : M.filter (fun x => decide (x ≠ q)) = M := by
          apply List.filter_eq_self.mpr
          intro i hi
          simpa using Nat.ne_of_lt (hlt i hi)
        have hfilter2 : M.filter (fun x => !decide (x = q)) = M := by
          simpa using hfilter
        simp [laneStep, hhas, hadd, hsel, hpend, hq, List.filter_append, hfilter2]
    · intro hmem
      rw [List.mem_append, List.mem_singleton, not_or] at hmem
      obtain ⟨hhas, hadd, hsel, hpend⟩ := hout hmem.1
      have hpn : ¬ p = (n : Int) := by
        rw [hq]
        exact_mod_cast hmem.2
      have hp0 : ¬ p < 0 := by rw [hq]; omega
      simp [laneStep, hhas, hadd, hsel, hpend, hpn, hp0]

theorem laneRun_inv (p : Int) (f : Nat → AVStream → Bool) (xs : List AVStream) :
    LaneInv p (members f xs) (laneRun p f 0 xs Lane.empty) := by
  induction xs using List.reverseRecOn with
  | nil =>
      refine ⟨rfl, fun _ => ⟨rfl, rfl, rfl, rfl⟩, fun q _ => ⟨?_, fun _ => ⟨rfl, rfl, rfl, rfl⟩⟩⟩
      intro hq
      simp [members] at hq
  | append_singleton xs x ih =>
      rw [laneRun_append, members_snoc]
      simp only [Nat.zero_add, laneRun]
      by_cases hf : f xs.length x = true
      · simp only [hf, if_true]
        exact laneStep_inv p _ _ _ (members_lt f xs) ih
      · simp only [Bool.not_eq_true] at hf
        simpa [hf] using ih

theorem lane_initial (T : AVMediaType) : lane T InitState.initial = Lane.empty := by
  cases T <;> rfl

theorem members_creates_eq (env : InitEnv) (T : AVMediaType) (streams : List AVStream)
    (hT : T = .audio ∨ T = .video)
    (hno : ∀ j st, streams[j]? = some st →
      (reachesFactory .audio st = true ∨ reachesFactory .video st = true) →
      env.factoryThrows j = false) :
    members (creates env T) streams = factoryIndices T streams := by
  unfold members factoryIndices
  apply List.filter_congr
  intro j _
  cases hst : streams[j]? with
  | none => rfl
  | some st =>
      simp only [creates]
      cases hr : reachesFactory T st with
      | false => rfl
      | true =>
          have := hno j st hst (by rcases hT with h | h <;> subst h <;> simp [hr])
          simp [this]

/-- Both lanes of the state reached by `InitFFmpegContext` satisfy the lane invariant
for the streams whose iteration was entered. -/
theorem InitFFmpegContext_lanes (env : InitEnv) (streams : List AVStream) :
    ∃ k, k ≤ streams.length ∧
      ((InitFFmpegContext env streams).2 = none →
        k = streams.length ∧
        ∀ j st, streams[j]? = some st →
          (reachesFactory .audio st = true ∨ reachesFactory .video st = true) →
          env.factoryThrows j = false) ∧
      LaneInv env.preferredAudioStreamId (members (creates env .audio) (streams.take k))
        (lane .audio (InitFFmpegContext env streams).1) ∧
      LaneInv env.preferredVideoStreamId (members (creates env .video) (streams.take k))
        (lane .video (InitFFmpegContext env streams).1) := by
  by_cases hfind : env.findStreamInfoResult < 0
  · refine ⟨0, Nat.zero_le _, ?_, ?_, ?_⟩
    · intro h
      simp [InitFFmpegContext, hfind] at h
    · simpa [InitFFmpegContext, hfind, lane_initial, laneRun] using
        laneRun_inv env.preferredAudioStreamId (creates env .audio) []
    · simpa [InitFFmpegContext, hfind, lane_initial, laneRun] using
        laneRun_inv env.preferredVideoStreamId (creates env .video) []
  · obtain ⟨k, hk, hnone, _, haud, hvid⟩ :=
      enumerateFrom_lanes env streams 0 InitState.initial
        ⟨fun d hd => by simp [InitState.initial] at hd, fun d hd => by simp [InitState.initial] at hd⟩
    refine ⟨k, hk, ?_, ?_, ?_⟩
    · intro h
      simp only [InitFFmpegContext, hfind, if_false] at h
      obtain ⟨h1, h2⟩ := hnone h
      exact ⟨h1, fun j st hj hr => by simpa using h2 j st hj hr⟩
    · simp only [InitFFmpegContext, hfind, if_false]
      rw [haud, lane_initial]
      exact laneRun_inv _ _ _
    · simp only [InitFFmpegContext, hfind, if_false]
      rw [hvid, lane_initial]
      exact laneRun_inv _ _ _

/-- The lane invariant of kind `T` (audio or video) for the preferred index of that
kind, in the state reached by `InitFFmpegContext`; when no exception left the function,
the streams of the lane are exactly those for which the factory is asked. -/
theorem InitFFmpegContext_lane (env : InitEnv) (streams : List AVStream) (T : AVMediaType)
    (p : Int)
    (hT : (T = .audio ∧ env.preferredAudioStreamId = p) ∨
          (T = .video ∧ env.preferredVideoStreamId = p)) :
    ∃ M : List Nat, M.Pairwise (· < ·) ∧
      ((InitFFmpegContext env streams).2 = none → M = factoryIndices T streams) ∧
      LaneInv p M (lane T (InitFFmpegContext env streams).1) := by
  obtain ⟨k, _, hnone, haud, hvid⟩ := InitFFmpegContext_lanes env streams
  have hT2 : T = .audio ∨ T = .video := hT.elim (fun h => Or.inl h.1) (fun h => Or.inr h.1)
  refine ⟨members (creates env T) (streams.take k), members_pairwise _ _, ?_, ?_⟩
  · intro h
    obtain ⟨hk, hno⟩ := hnone h
    rw [hk, List.take_length]
    exact members_creates_eq env T streams hT2 hno
  · rcases hT with ⟨h1, h2⟩ | ⟨h1, h2⟩ <;> subst h1 <;> subst h2
    · exact haud
    · exact hvid

/-! ## Stream enumeration: registration order and default selection -/

/-- C1: for `T` audio or video, when the preferred index `q` of kind `T` is the index of
a stream for which a provider and descriptor of kind `T` were created (its descriptor is
a key of `m_streamDescriptorMap`), the kind-`T` descriptors passed to
`AddStreamDescriptor` are: the descriptor of stream `q` first, then those of all other
streams with a descriptor of kind `T`, in ascending index order, each exactly once.  When
no exception left the function, the streams with a descriptor of kind `T` are all
streams for which the loop asks the factory for a kind-`T` provider. -/
theorem C1_preferred_descriptor_registered_first (env : InitEnv) (streams : List AVStream)
    (T : AVMediaType) (q : Nat)
    (hT : (T = .audio ∧ env.preferredAudioStreamId = (q : Int)) ∨
          (T = .video ∧ env.preferredVideoStreamId = (q : Int)))
    (hq : q ∈ createdOf T (InitFFmpegContext env streams).1) :
    addedOf T (InitFFmpegContext env streams).1.log =
        q :: (createdOf T (InitFFmpegContext env streams).1).filter (· ≠ q) ∧
      (addedOf T (InitFFmpegContext env streams).1.log).Nodup ∧
      (createdOf T (InitFFmpegContext env streams).1).Pairwise (· < ·) ∧
      ((InitFFmpegContext env streams).2 = none →
        createdOf T (InitFFmpegContext env streams).1 = factoryIndices T streams) := by
  obtain ⟨M, hpw, hnone, hc, _, hpos⟩ := InitFFmpegContext_lane env streams T q hT
  have hc2 : createdOf T (InitFFmpegContext env streams).1 = M := hc
  rw [hc2] at hq ⊢
  obtain ⟨_, hadd, _, _⟩ := (hpos q rfl).1 hq
  have hadd2 : addedOf T (InitFFmpegContext env streams).1.log
      = q :: M.filter (fun x => decide (x ≠ q)) := hadd
  refine ⟨hadd2, ?_, hpw, hnone⟩
  rw [hadd2, List.nodup_cons]
  constructor
  · simp [List.mem_filter]
  · exact (hpw.imp (fun h => Nat.ne_of_lt h)).filter _

/-- C1, the three-track example of the specification: three audio streams with preferred
audio index 1 are registered in the order 1, 0, 2. -/
theorem C1_witness :
    addedOf .audio
      (InitFFmpegContext ⟨0, 1, -1, true, fun _ => false⟩
        [⟨.audio, 0⟩, ⟨.audio, 0⟩, ⟨.audio, 0⟩]).1.log = [1, 0, 2] :=
  (C1_preferred_descriptor_registered_first ⟨0, 1, -1, true, fun _ => false⟩
    [⟨.audio, 0⟩, ⟨.audio, 0⟩, ⟨.audio, 0⟩] .audio 1 (Or.inl ⟨rfl, rfl⟩) (by decide)).1.trans
    (by decide)

/-- C2, as stated, fails: a music file with cover art (an audio stream and a video
stream whose disposition is the attached-picture value) has a video stream in its
stream list, the preferred indices are those of the two streams, the function returns
normally, and `Select` has been called on no video provider. -/
theorem C2_counterexample :
    (∃ st ∈ [(⟨.audio, 0⟩ : AVStream), ⟨.video, AV_DISPOSITION_ATTACHED_PIC⟩],
        st.codec_type = .video) ∧
      (InitFFmpegContext ⟨0, 0, 1, true, fun _ => false⟩
        [⟨.audio, 0⟩, ⟨.video, AV_DISPOSITION_ATTACHED_PIC⟩]).2 = none ∧
      ¬ (selectedOf .video
        (InitFFmpegContext ⟨0, 0, 1, true, fun _ => false⟩
          [⟨.audio, 0⟩, ⟨.video, AV_DISPOSITION_ATTACHED_PIC⟩]).1.log).length = 1 := by
  decide

/-- C2, amended: for `T` audio or video, if at least one provider of kind `T` was
created and the preferred index `p` of kind `T` is negative or the index of a stream for
which a provider of kind `T` was created, then `Select` has been called on exactly one
provider of kind `T`; its stream index is `p` when `p` is non-negative and otherwise the
lowest index among the streams for which a provider of kind `T` was created.  When no
exception left the function, those streams are all streams for which the loop asks the
factory for a kind-`T` provider. -/
theorem C2_one_default_selection_per_kind (env : InitEnv) (streams : List AVStream)
    (T : AVMediaType) (p : Int)
    (hT : (T = .audio ∧ env.preferredAudioStreamId = p) ∨
          (T = .video ∧ env.preferredVideoStreamId = p))
    (hpresent : createdOf T (InitFFmpegContext env streams).1 ≠ [])
    (hpref : p < 0 ∨ ∃ q : Nat, p = (q : Int) ∧ q ∈ createdOf T (InitFFmpegContext env streams).1) :
    (∃ m, selectedOf T (InitFFmpegContext env streams).1.log = [m] ∧
        m ∈ createdOf T (InitFFmpegContext env streams).1 ∧
        (0 ≤ p → (m : Int) = p) ∧
        (p < 0 → ∀ j ∈ createdOf T (InitFFmpegContext env streams).1, m ≤ j)) ∧
      ((InitFFmpegContext env streams).2 = none →
        createdOf T (InitFFmpegContext env streams).1 = factoryIndices T streams) := by
  obtain ⟨M, hpw, hnone, hc, hneg, hpos⟩ := InitFFmpegContext_lane env streams T p hT
  have hc2 : createdOf T (InitFFmpegContext env streams).1 = M := hc
  rw [hc2] at hpresent hpref ⊢
  refine ⟨?_, hnone⟩
  rcases hpref with hp | ⟨q, hpq, hqM⟩
  · obtain ⟨_, _, hsel, _⟩ := hneg hp
    have hsel2 : selectedOf T (InitFFmpegContext env streams).1.log = M.head?.toList := hsel
    cases M with
    | nil => exact absurd rfl hpresent
    | cons m tl =>
        refine ⟨m, by simpa using hsel2, List.mem_cons_self _ _, fun h => absurd hp (not_lt.mpr h),
          fun _ j hj => ?_⟩
        rcases List.mem_cons.mp hj with rfl | hj
        · exact le_refl _
        · exact Nat.le_of_lt ((List.pairwise_cons.mp hpw).1 j hj)
  · obtain ⟨_, _, hsel, _⟩ := (hpos q hpq).1 hqM
    refine ⟨q, hsel, hqM, fun _ => hpq.symm, fun h => ?_⟩
    rw [hpq] at h
    omega

/-- C2 amended, on a file with two audio streams and a video stream between them, with
preferred audio index 2: the one audio provider selected is that of stream 2. -/
theorem C2_witness :
    ∃ m, selectedOf .audio
        (InitFFmpegContext ⟨0, 2, 1, true, fun _ => false⟩
          [⟨.audio, 0⟩, ⟨.video, 0⟩, ⟨.audio, 0⟩]).1.log = [m] ∧
      m ∈ createdOf .audio
        (InitFFmpegContext ⟨0, 2, 1, true, fun _ => false⟩
          [⟨.audio, 0⟩, ⟨.video, 0⟩, ⟨.audio, 0⟩]).1 ∧
      (0 ≤ (2 : Int) → (m : Int) = 2) ∧
      ((2 : Int) < 0 → ∀ j ∈ createdOf .audio
        (InitFFmpegContext ⟨0, 2, 1, true, fun _ => false⟩
          [⟨.audio, 0⟩, ⟨.video, 0⟩, ⟨.audio, 0⟩]).1, m ≤ j) :=
  (C2_one_default_selection_per_kind ⟨0, 2, 1, true, fun _ => false⟩
    [⟨.audio, 0⟩, ⟨.video, 0⟩, ⟨.audio, 0⟩] .audio 2 (Or.inl ⟨rfl, rfl⟩) (by decide)
    (Or.inr ⟨2, rfl, by decide⟩)).1

/-- The attached-picture branch as the source takes it: a video stream whose disposition
is exactly `AV_DISPOSITION_ATTACHED_PIC` is published as thumbnail; no provider is
created, nothing is registered with the MSS or added to the maps, and the loop goes on. -/
theorem loopBody_attached_picture (env : InitEnv) (i : Nat) (s : InitState) :
    loopBody env i ⟨.video, AV_DISPOSITION_ATTACHED_PIC⟩ s =
      ({ s with log := s.log ++ [Event.setDiscardAll i, Event.setMSSThumbnail i] }, none) := by
  simp [loopBody]

/-- Both pending lists are empty after the loop whenever each preferred index is
negative or the index of a stream for which a provider of its kind was created. -/
theorem pendingListsEmpty_of_preferred_created (env : InitEnv) (streams : List AVStream)
    (haud : env.preferredAudioStreamId < 0 ∨
      ∃ q : Nat, env.preferredAudioStreamId = (q : Int) ∧
        q ∈ createdOf .audio (InitFFmpegContext env streams).1)
    (hvid : env.preferredVideoStreamId < 0 ∨
      ∃ q : Nat, env.preferredVideoStreamId = (q : Int) ∧
        q ∈ createdOf .video (InitFFmpegContext env streams).1) :
    pendingListsEmpty (InitFFmpegContext env streams).1 = true := by
  obtain ⟨Ma, _, _, hca, hnega, hposa⟩ :=
    InitFFmpegContext_lane env streams .audio env.preferredAudioStreamId (Or.inl ⟨rfl, rfl⟩)
  obtain ⟨Mv, _, _, hcv, hnegv, hposv⟩ :=
    InitFFmpegContext_lane env streams .video env.preferredVideoStreamId (Or.inr ⟨rfl, rfl⟩)
  have hca2 : createdOf .audio (InitFFmpegContext env streams).1 = Ma := hca
  have hcv2 : createdOf .video (InitFFmpegContext env streams).1 = Mv := hcv
  have hpa : (lane .audio (InitFFmpegContext env streams).1).pending = [] := by
    rcases haud with h | ⟨q, hq, hmem⟩
    · exact (hnega h).2.2.2
    · exact ((hposa q hq).1 (hca2 ▸ hmem)).2.2.2
  have hpv : (lane .video (InitFFmpegContext env streams).1).pending = [] := by
    rcases hvid with h | ⟨q, hq, hmem⟩
    · exact (hnegv h).2.2.2
    · exact ((hposv q hq).1 (hcv2 ▸ hmem)).2.2.2
  simp [lane] at hpa hpv
  simp [pendingListsEmpty, hpa, hpv]

/-- C8, at the failing input: a single video stream whose disposition is
`AV_DISPOSITION_ATTACHED_PIC | AV_DISPOSITION_DEFAULT` (`0x0401`) has the attached-picture
bit set, yet the loop publishes no thumbnail: it creates a video provider, registers its
descriptor with the MSS, selects it, and adds it to both maps. -/
theorem C8_attached_picture_with_other_bits :
    (0x0401 &&& AV_DISPOSITION_ATTACHED_PIC) = AV_DISPOSITION_ATTACHED_PIC ∧
      (InitFFmpegContext ⟨0, -1, 0, true, fun _ => false⟩ [⟨.video, 0x0401⟩]).2 = none ∧
      (InitFFmpegContext ⟨0, -1, 0, true, fun _ => false⟩ [⟨.video, 0x0401⟩]).1.log =
        [Event.setDiscardAll 0, Event.addStreamDescriptor ⟨.video, 0⟩,
         Event.select ⟨.video, 0⟩] ∧
      (InitFFmpegContext ⟨0, -1, 0, true, fun _ => false⟩ [⟨.video, 0x0401⟩]).1.m_streamIdMap =
        [(0, ⟨.video, 0⟩)] ∧
      (InitFFmpegContext ⟨0, -1, 0, true, fun _ => false⟩
        [⟨.video, 0x0401⟩]).1.m_streamDescriptorMap = [(⟨.video, 0⟩, ⟨.video, 0⟩)] := by
  decide

/-- C10, at the failing input: a cover-art stream (disposition exactly the
attached-picture value) followed by an ordinary video stream, with the cover-art stream
as preferred video index and no audio.  The function returns normally, the pending video
list still holds the descriptor of stream 1, so the second `WINRT_ASSERT` fails, and that
descriptor is a key of `m_streamDescriptorMap` without having been passed to
`AddStreamDescriptor`. -/
theorem C10_pending_video_left_over :
    ([(⟨.video, AV_DISPOSITION_ATTACHED_PIC⟩ : AVStream), ⟨.video, 0⟩][0]?.map (·.codec_type)
        = some .video) ∧
      (InitFFmpegContext ⟨0, -1, 0, true, fun _ => false⟩
        [⟨.video, AV_DISPOSITION_ATTACHED_PIC⟩, ⟨.video, 0⟩]).2 = none ∧
      (InitFFmpegContext ⟨0, -1, 0, true, fun _ => false⟩
        [⟨.video, AV_DISPOSITION_ATTACHED_PIC⟩, ⟨.video, 0⟩]).1.pendingVideoStreamDescriptors
        = [⟨.video, 1⟩] ∧
      pendingListsEmpty (InitFFmpegContext ⟨0, -1, 0, true, fun _ => false⟩
        [⟨.video, AV_DISPOSITION_ATTACHED_PIC⟩, ⟨.video, 0⟩]).1 = false ∧
      (InitFFmpegContext ⟨0, -1, 0, true, fun _ => false⟩
        [⟨.video, AV_DISPOSITION_ATTACHED_PIC⟩, ⟨.video, 0⟩]).1.m_streamDescriptorMap
        = [(⟨.video, 1⟩, ⟨.video, 1⟩)] ∧
      Event.addStreamDescriptor ⟨.video, 1⟩ ∉
        (InitFFmpegContext ⟨0, -1, 0, true, fun _ => false⟩
          [⟨.video, AV_DISPOSITION_ATTACHED_PIC⟩, ⟨.video, 0⟩]).1.log := by
  decide

/-! ## `OnStarting` -/

theorem wrapInt64_of_representable (x : Int)
    (h : -9223372036854775808 ≤ x ∧ x ≤ 9223372036854775807) : wrapInt64 x = x := by
  unfold wrapInt64
  omega

theorem seekCalls_map_onSeek (m : List (Nat × SampleProvider)) (P : Int) :
    seekCalls (m.map (fun e => Event.onSeek e.2 P)) = [] := by
  induction m with
  | nil => rfl
  | cons e m ih =>
      simp only [seekCalls] at ih
      simp [seekCalls, List.filter_cons, ih]

theorem seekNotifications_map_onSeek (m : List (Nat × SampleProvider)) (P : Int) :
    seekNotifications (m.map (fun e => Event.onSeek e.2 P)) =
      m.map (fun e => Event.onSeek e.2 P) := by
  induction m with
  | nil => rfl
  | cons e m ih =>
      simp only [seekNotifications] at ih
      simp [seekNotifications, List.filter_cons, ih]

/-- The seek target `OnStarting` computes once the timestamp check has passed. -/
theorem OnStartingTry_of_check_passed (a : FFmpegInteropMSS) (P seekResult : Int)
    (hcheck : ConvertToAVTime P HNS_PER_SEC av_get_time_base_q ≤ a.duration) :
    OnStartingTry a P seekResult =
      (if seekResult < 0 then
        ([Event.seekFile (-1) INT64_MIN
            (if a.start_time = AV_NOPTS_VALUE then ConvertToAVTime P HNS_PER_SEC av_get_time_base_q
             else wrapInt64 (ConvertToAVTime P HNS_PER_SEC av_get_time_base_q + a.start_time))
            (if a.start_time = AV_NOPTS_VALUE then ConvertToAVTime P HNS_PER_SEC av_get_time_base_q
             else wrapInt64 (ConvertToAVTime P HNS_PER_SEC av_get_time_base_q + a.start_time))
            0], some (Thrown.ffmpeg seekResult))
      else
        (Event.seekFile (-1) INT64_MIN
            (if a.start_time = AV_NOPTS_VALUE then ConvertToAVTime P HNS_PER_SEC av_get_time_base_q
             else wrapInt64 (ConvertToAVTime P HNS_PER_SEC av_get_time_base_q + a.start_time))
            (if a.start_time = AV_NOPTS_VALUE then ConvertToAVTime P HNS_PER_SEC av_get_time_base_q
             else wrapInt64 (ConvertToAVTime P HNS_PER_SEC av_get_time_base_q + a.start_time))
            0 :: a.m_streamIdMap.map (fun e => Event.onSeek e.2 P)
          ++ [Event.setActualStartPosition P], none)) := by
  have hnot : ¬ ConvertToAVTime P HNS_PER_SEC av_get_time_base_q > a.duration := not_lt.mpr hcheck
  by_cases hst : a.start_time = AV_NOPTS_VALUE <;> simp [OnStartingTry, hnot, hst]

theorem OnStartingTry_of_check_failed (a : FFmpegInteropMSS) (P seekResult : Int)
    (hcheck : a.duration < ConvertToAVTime P HNS_PER_SEC av_get_time_base_q) :
    SeekRejected a P seekResult := by
  have h : OnStartingTry a P seekResult = ([], some (Thrown.hresult MF_E_INVALID_TIMESTAMP)) := by
    simp [OnStartingTry, hcheck]
  exact ⟨h, by simp [OnStarting, h]⟩

theorem SeekAccepted_of_check_passed (a : FFmpegInteropMSS) (P seekResult : Int)
    (hcheck : ConvertToAVTime P HNS_PER_SEC av_get_time_base_q ≤ a.duration) :
    SeekAccepted a P seekResult := by
  have h := OnStartingTry_of_check_passed a P seekResult hcheck
  by_cases hs : seekResult < 0
  · rw [if_pos hs] at h
    refine ⟨by rw [h]; simp,
      (if a.start_time = AV_NOPTS_VALUE then ConvertToAVTime P HNS_PER_SEC av_get_time_base_q
       else wrapInt64 (ConvertToAVTime P HNS_PER_SEC av_get_time_base_q + a.start_time)), ?_⟩
    simp [OnStarting, h, seekCalls, List.filter_cons]
  · rw [if_neg hs] at h
    refine ⟨by rw [h]; simp,
      (if a.start_time = AV_NOPTS_VALUE then ConvertToAVTime P HNS_PER_SEC av_get_time_base_q
       else wrapInt64 (ConvertToAVTime P HNS_PER_SEC av_get_time_base_q + a.start_time)), ?_⟩
    have hm := seekCalls_map_onSeek a.m_streamIdMap P
    simp only [seekCalls] at hm
    simp [OnStarting, h, seekCalls, List.filter_cons, List.filter_append, hm]

theorem ConvertToAVTime_hns_mul_ten (x : Int) :
    ConvertToAVTime (10 * x) HNS_PER_SEC av_get_time_base_q = x := by
  unfold ConvertToAVTime HNS_PER_SEC av_get_time_base_q
  have h : 10 * x * 1000000 = x * (10000000 * 1) := by ring
  rw [h]
  exact Int.mul_tdiv_cancel x (by norm_num)

/-- C3, as stated, fails: a start position of 10 s passes the duration check of a 60 s
file, but when `avformat_seek_file` fails no provider of the stream-id map receives
`OnSeek`. -/
theorem C3_counterexample :
    ConvertToAVTime 100000000 HNS_PER_SEC av_get_time_base_q ≤ exampleAdapter.duration ∧
      seekCalls (OnStarting exampleAdapter (some 100000000) (-1)) =
        [Event.seekFile (-1) INT64_MIN 12500000 12500000 0] ∧
      ¬ (∀ p ∈ exampleAdapter.providers,
          Event.onSeek p 100000000 ∈ OnStarting exampleAdapter (some 100000000) (-1)) := by
  decide

/-- C3, amended: in `OnStarting` with a start position `P` that passes the duration
check, the one seek issued is `avformat_seek_file(-1, INT64_MIN, t, t, 0)` where `t` is
`ConvertToAVTime(P)` when `start_time` is `AV_NOPTS_VALUE` and otherwise
`ConvertToAVTime(P) + start_time` (the sum being representable in `int64_t`); and when
that call succeeds, the handler then calls `OnSeek(P)`, with the host-time value `P`, on
every provider of the stream-id map, then `SetActualStartPosition(P)`. -/
theorem C3_seek_target_and_notifications (a : FFmpegInteropMSS) (P seekResult : Int)
    (hcheck : ConvertToAVTime P HNS_PER_SEC av_get_time_base_q ≤ a.duration)
    (hrep : a.start_time ≠ AV_NOPTS_VALUE →
      INT64_MIN ≤ ConvertToAVTime P HNS_PER_SEC av_get_time_base_q + a.start_time ∧
      ConvertToAVTime P HNS_PER_SEC av_get_time_base_q + a.start_time ≤ INT64_MAX) :
    seekCalls (OnStarting a (some P) seekResult) =
        [Event.seekFile (-1) INT64_MIN
          (if a.start_time = AV_NOPTS_VALUE then ConvertToAVTime P HNS_PER_SEC av_get_time_base_q
           else ConvertToAVTime P HNS_PER_SEC av_get_time_base_q + a.start_time)
          (if a.start_time = AV_NOPTS_VALUE then ConvertToAVTime P HNS_PER_SEC av_get_time_base_q
           else ConvertToAVTime P HNS_PER_SEC av_get_time_base_q + a.start_time)
          0] ∧
      (0 ≤ seekResult →
        OnStarting a (some P) seekResult =
          Event.lock ::
          Event.seekFile (-1) INT64_MIN
            (if a.start_time = AV_NOPTS_VALUE then ConvertToAVTime P HNS_PER_SEC av_get_time_base_q
             else ConvertToAVTime P HNS_PER_SEC av_get_time_base_q + a.start_time)
            (if a.start_time = AV_NOPTS_VALUE then ConvertToAVTime P HNS_PER_SEC av_get_time_base_q
             else ConvertToAVTime P HNS_PER_SEC av_get_time_base_q + a.start_time)
            0 ::
          a.providers.map (fun p => Event.onSeek p P)
            ++ [Event.setActualStartPosition P, Event.unlock]) := by
  have h := OnStartingTry_of_check_passed a P seekResult hcheck
  have hwrap : (if a.start_time = AV_NOPTS_VALUE then
        ConvertToAVTime P HNS_PER_SEC av_get_time_base_q
      else wrapInt64 (ConvertToAVTime P HNS_PER_SEC av_get_time_base_q + a.start_time)) =
      (if a.start_time = AV_NOPTS_VALUE then ConvertToAVTime P HNS_PER_SEC av_get_time_base_q
       else ConvertToAVTime P HNS_PER_SEC av_get_time_base_q + a.start_time) := by
    by_cases hst : a.start_time = AV_NOPTS_VALUE
    · simp [hst]
    · simp only [hst, if_false]
      exact wrapInt64_of_representable _ (hrep hst)
  rw [hwrap] at h
  have hm := seekCalls_map_onSeek a.m_streamIdMap P
  simp only [seekCalls] at hm
  constructor
  · by_cases hs : seekResult < 0
    · rw [if_pos hs] at h
      simp [OnStarting, h, seekCalls, List.filter_cons]
    · rw [if_neg hs] at h
      simp [OnStarting, h, seekCalls, List.filter_cons, List.filter_append, hm]
  · intro hs
    rw [if_neg (not_lt.mpr hs)] at h
    simp [OnStarting, h, FFmpegInteropMSS.providers, List.map_map, Function.comp_def]

/-- C3 amended, on the seek example of the specification: `P = 100_000_000` with
`start_time = 2_500_000` gives `ts = 12_500_000` and `OnSeek(100_000_000)`. -/
theorem C3_witness :
    seekCalls (OnStarting exampleAdapter (some 100000000) 0) =
        [Event.seekFile (-1) INT64_MIN 12500000 12500000 0] ∧
      OnStarting exampleAdapter (some 100000000) 0 =
        [Event.lock, Event.seekFile (-1) INT64_MIN 12500000 12500000 0,
         Event.onSeek ⟨.audio, 0⟩ 100000000, Event.onSeek ⟨.video, 1⟩ 100000000,
         Event.setActualStartPosition 100000000, Event.unlock] :=
  ⟨(C3_seek_target_and_notifications exampleAdapter 100000000 0 (by decide)
      (fun _ => by decide)).1.trans (by decide),
   ((C3_seek_target_and_notifications exampleAdapter 100000000 0 (by decide)
      (fun _ => by decide)).2 (by decide)).trans (by decide)⟩

/-- The timestamp check at the duration itself: a start position of `10 * D` host ticks,
where `D` is the container duration, converts to exactly `D` and is let through to the
seek.  Only the value of the conversion on a whole number of microseconds is used. -/
theorem OnStarting_accepts_duration (a : FFmpegInteropMSS) (seekResult : Int) :
    SeekAccepted a (10 * a.duration) seekResult := by
  apply SeekAccepted_of_check_passed
  rw [ConvertToAVTime_hns_mul_ten]

/-- C5, as stated, fails: on a successful seek the `OnSeek` calls come first and
`SetActualStartPosition` last, not the other way round; and when `avformat_seek_file`
fails, `SetActualStartPosition` is not called at all. -/
theorem C5_counterexample :
    ¬ (List.indexOf (Event.setActualStartPosition 100000000)
          (OnStarting exampleAdapter (some 100000000) 0) <
        List.indexOf (Event.onSeek ⟨.audio, 0⟩ 100000000)
          (OnStarting exampleAdapter (some 100000000) 0)) ∧
      seekNotifications (OnStarting exampleAdapter (some 100000000) 0) =
        [Event.onSeek ⟨.audio, 0⟩ 100000000, Event.onSeek ⟨.video, 1⟩ 100000000,
         Event.setActualStartPosition 100000000] ∧
      ¬ (List.count (Event.setActualStartPosition 100000000)
          (OnStarting exampleAdapter (some 100000000) (-1)) = 1) := by
  decide

/-- C5, amended: an invocation of `OnStarting` with a non-null start position `P` that
passes the duration check and whose `avformat_seek_file` call succeeds makes exactly one
`OnSeek(P)` call per entry of the stream-id map, in key order, and then exactly one
`SetActualStartPosition(P)` call; an invocation that fails the check or the seek makes
none of these calls. -/
theorem C5_seek_notifications (a : FFmpegInteropMSS) (P seekResult : Int) :
    seekNotifications (OnStarting a (some P) seekResult) =
      if ConvertToAVTime P HNS_PER_SEC av_get_time_base_q ≤ a.duration ∧ 0 ≤ seekResult then
        a.providers.map (fun p => Event.onSeek p P) ++ [Event.setActualStartPosition P]
      else [] := by
  have hm := seekNotifications_map_onSeek a.m_streamIdMap P
  simp only [seekNotifications] at hm
  by_cases hcheck : ConvertToAVTime P HNS_PER_SEC av_get_time_base_q ≤ a.duration
  · have h := OnStartingTry_of_check_passed a P seekResult hcheck
    by_cases hs : seekResult < 0
    · rw [if_pos hs] at h
      have hs2 : ¬ 0 ≤ seekResult := not_le.mpr hs
      simp [OnStarting, h, seekNotifications, List.filter_cons, hs2]
    · rw [if_neg hs] at h
      have hs2 : 0 ≤ seekResult := not_lt.mp hs
      simp [OnStarting, h, seekNotifications, List.filter_cons, List.filter_append, hm, hs2,
        hcheck, FFmpegInteropMSS.providers, List.map_map, Function.comp_def]
  · have h := (OnStartingTry_of_check_failed a P seekResult (not_le.mp hcheck)).2
    simp [h, seekNotifications, List.filter_cons, hcheck]

/-! ## `OnSampleRequested` -/

theorem notifyEOFCalls_map_notifyEOF (m : List (Nat × SampleProvider)) :
    notifyEOFCalls (m.map (fun e => Event.notifyEOF e.2)) = m.map (·.2) := by
  induction m with
  | nil => rfl
  | cons e m ih =>
      simp only [notifyEOFCalls] at ih
      simp [notifyEOFCalls, List.filterMap_cons, ih]

theorem notifyErrorCalls_map_notifyEOF (m : List (Nat × SampleProvider)) :
    notifyErrorCalls (m.map (fun e => Event.notifyEOF e.2)) = [] := by
  induction m with
  | nil => rfl
  | cons e m ih =>
      simp only [notifyErrorCalls] at ih
      simp [notifyErrorCalls, List.filterMap_cons, ih]

/-- C6: in `OnSampleRequested`, (1) if the descriptor is a key of the descriptor map and
`GetSample` fails with `MF_E_END_OF_STREAM`, then `NotifyEOF` is called once per entry of
the stream-id map, hence exactly once on every provider of it (no provider being held
twice), and `NotifyError` is not called; (2) if the descriptor lookup fails, or
`GetSample` fails with any other error, then `NotifyError(Other)` is called exactly once
and `NotifyEOF` on no provider; (3) if `GetSample` succeeds, neither is called. -/
theorem C6_sample_request_error_policy (a : FFmpegInteropMSS) (d : IMediaStreamDescriptor)
    (getSampleResult : SampleProvider → Option Int) :
    (∀ p, a.m_streamDescriptorMap.lookup d = some p →
        getSampleResult p = some MF_E_END_OF_STREAM →
        notifyEOFCalls (OnSampleRequested a d getSampleResult) = a.providers ∧
        notifyErrorCalls (OnSampleRequested a d getSampleResult) = [] ∧
        (a.providers.Nodup → ∀ q ∈ a.providers,
          (notifyEOFCalls (OnSampleRequested a d getSampleResult)).count q = 1)) ∧
      ((a.m_streamDescriptorMap.lookup d = none ∨
          ∃ p hr, a.m_streamDescriptorMap.lookup d = some p ∧ getSampleResult p = some hr ∧
            hr ≠ MF_E_END_OF_STREAM) →
        notifyErrorCalls (OnSampleRequested a d getSampleResult)
          = [MediaStreamSourceErrorStatus.Other] ∧
        notifyEOFCalls (OnSampleRequested a d getSampleResult) = []) ∧
      (∀ p, a.m_streamDescriptorMap.lookup d = some p → getSampleResult p = none →
        notifyEOFCalls (OnSampleRequested a d getSampleResult) = [] ∧
        notifyErrorCalls (OnSampleRequested a d getSampleResult) = []) := by
  have hm := notifyEOFCalls_map_notifyEOF a.m_streamIdMap
  have hm2 := notifyErrorCalls_map_notifyEOF a.m_streamIdMap
  simp only [notifyEOFCalls] at hm
  simp only [notifyErrorCalls] at hm2
  refine ⟨?_, ?_, ?_⟩
  · intro p hlook hres
    have heof : notifyEOFCalls (OnSampleRequested a d getSampleResult) = a.providers := by
      simp [OnSampleRequested, OnSampleRequestedTry, hlook, hres, notifyEOFCalls,
        List.filterMap_cons, List.filterMap_append, hm, FFmpegInteropMSS.providers]
    refine ⟨heof, ?_, ?_⟩
    · simp [OnSampleRequested, OnSampleRequestedTry, hlook, hres, notifyErrorCalls,
        List.filterMap_cons, List.filterMap_append, hm2]
    · intro hnd q hq
      rw [heof]
      exact List.count_eq_one_of_mem hnd hq
  · rintro (hlook | ⟨p, hr, hlook, hres, hne⟩)
    · have hb : E_BOUNDS ≠ MF_E_END_OF_STREAM := by decide
      simp [OnSampleRequested, OnSampleRequestedTry, hlook, hb, notifyErrorCalls,
        notifyEOFCalls, List.filterMap_cons]
    · simp [OnSampleRequested, OnSampleRequestedTry, hlook, hres, hne, notifyErrorCalls,
        notifyEOFCalls, List.filterMap_cons]
  · intro p hlook hres
    simp [OnSampleRequested, OnSampleRequestedTry, hlook, hres, notifyErrorCalls,
      notifyEOFCalls, List.filterMap_cons]

/-- C6, on the example adapter: end of stream on the audio stream notifies both
providers once and reports no error; an unknown descriptor, and a failure other than end
of stream, report `Other` once and notify no provider; success does neither. -/
theorem C6_witness :
    (notifyEOFCalls (OnSampleRequested exampleAdapter ⟨.audio, 0⟩
          (fun _ => some MF_E_END_OF_STREAM)) = [⟨.audio, 0⟩, ⟨.video, 1⟩] ∧
        notifyErrorCalls (OnSampleRequested exampleAdapter ⟨.audio, 0⟩
          (fun _ => some MF_E_END_OF_STREAM)) = []) ∧
      (notifyErrorCalls (OnSampleRequested exampleAdapter ⟨.audio, 7⟩ (fun _ => none))
          = [MediaStreamSourceErrorStatus.Other] ∧
        notifyEOFCalls (OnSampleRequested exampleAdapter ⟨.audio, 7⟩ (fun _ => none)) = []) ∧
      (notifyErrorCalls (OnSampleRequested exampleAdapter ⟨.video, 1⟩ (fun _ => some E_BOUNDS))
          = [MediaStreamSourceErrorStatus.Other] ∧
        notifyEOFCalls (OnSampleRequested exampleAdapter ⟨.video, 1⟩
          (fun _ => some E_BOUNDS)) = []) ∧
      (notifyEOFCalls (OnSampleRequested exampleAdapter ⟨.video, 1⟩ (fun _ => none)) = [] ∧
        notifyErrorCalls (OnSampleRequested exampleAdapter ⟨.video, 1⟩ (fun _ => none)) = []) :=
  ⟨⟨((C6_sample_request_error_policy exampleAdapter ⟨.audio, 0⟩
        (fun _ => some MF_E_END_OF_STREAM)).1 ⟨.audio, 0⟩ (by decide) rfl).1.trans (by decide),
    ((C6_sample_request_error_policy exampleAdapter ⟨.audio, 0⟩
        (fun _ => some MF_E_END_OF_STREAM)).1 ⟨.audio, 0⟩ (by decide) rfl).2.1⟩,
   (C6_sample_request_error_policy exampleAdapter ⟨.audio, 7⟩ (fun _ => none)).2.1
      (Or.inl (by decide)),
   (C6_sample_request_error_policy exampleAdapter ⟨.video, 1⟩ (fun _ => some E_BOUNDS)).2.1
      (Or.inr ⟨⟨.video, 1⟩, E_BOUNDS, by decide, rfl, by decide⟩),
   (C6_sample_request_error_policy exampleAdapter ⟨.video, 1⟩ (fun _ => none)).2.2
      ⟨.video, 1⟩ (by decide) rfl⟩

/-! ## `OnSwitchStreamsRequested` -/

/-- C7: in `OnSwitchStreamsRequested`, when each of the old and the new descriptor is
null or a key of the descriptor map, the handler runs under the lock exactly: `Deselect`
on the old descriptor's provider if old is non-null, then `Select` on the new
descriptor's provider if new is non-null; nothing else, and no `NotifyError`. -/
theorem C7_switch_streams (a : FFmpegInteropMSS)
    (oldStreamDescriptor newStreamDescriptor : Option IMediaStreamDescriptor)
    (hold : ∀ d, oldStreamDescriptor = some d → (a.m_streamDescriptorMap.lookup d).isSome)
    (hnew : ∀ d, newStreamDescriptor = some d → (a.m_streamDescriptorMap.lookup d).isSome) :
    OnSwitchStreamsRequested a oldStreamDescriptor newStreamDescriptor =
        [Event.lock]
          ++ ((oldStreamDescriptor.bind fun d => a.m_streamDescriptorMap.lookup d).toList.map
                Event.deselect)
          ++ ((newStreamDescriptor.bind fun d => a.m_streamDescriptorMap.lookup d).toList.map
                Event.select)
          ++ [Event.unlock] ∧
      (oldStreamDescriptor.bind fun d => a.m_streamDescriptorMap.lookup d).isSome
        = oldStreamDescriptor.isSome ∧
      (newStreamDescriptor.bind fun d => a.m_streamDescriptorMap.lookup d).isSome
        = newStreamDescriptor.isSome ∧
      notifyErrorCalls (OnSwitchStreamsRequested a oldStreamDescriptor newStreamDescriptor)
        = [] := by
  cases oldStreamDescriptor with
  | none =>
      cases newStreamDescriptor with
      | none => simp [OnSwitchStreamsRequested, OnSwitchStreamsRequestedTry, notifyErrorCalls]
      | some dn =>
          obtain ⟨pn, hpn⟩ := Option.isSome_iff_exists.mp (hnew dn rfl)
          simp [OnSwitchStreamsRequested, OnSwitchStreamsRequestedTry, notifyErrorCalls, hpn]
  | some dold =>
      obtain ⟨po, hpo⟩ := Option.isSome_iff_exists.mp (hold dold rfl)
      cases newStreamDescriptor with
      | none =>
          simp [OnSwitchStreamsRequested, OnSwitchStreamsRequestedTry, notifyErrorCalls, hpo]
      | some dn =>
          obtain ⟨pn, hpn⟩ := Option.isSome_iff_exists.mp (hnew dn rfl)
          simp [OnSwitchStreamsRequested, OnSwitchStreamsRequestedTry, notifyErrorCalls, hpo,
            hpn]

/-- C7, on the example adapter: switching from the audio descriptor to the video
descriptor deselects the audio provider, then selects the video provider; switching from
null to the audio descriptor only selects. -/
theorem C7_witness :
    OnSwitchStreamsRequested exampleAdapter (some ⟨.audio, 0⟩) (some ⟨.video, 1⟩) =
        [Event.lock, Event.deselect ⟨.audio, 0⟩, Event.select ⟨.video, 1⟩, Event.unlock] ∧
      OnSwitchStreamsRequested exampleAdapter none (some ⟨.audio, 0⟩) =
        [Event.lock, Event.select ⟨.audio, 0⟩, Event.unlock] :=
  ⟨(C7_switch_streams exampleAdapter (some ⟨.audio, 0⟩) (some ⟨.video, 1⟩)
      (fun d h => by cases h; decide) (fun d h => by cases h; decide)).1.trans (by decide),
   (C7_switch_streams exampleAdapter none (some ⟨.audio, 0⟩)
      (fun d h => by cases h) (fun d h => by cases h; decide)).1.trans (by decide)⟩

/-! ## The adapter mutex -/

theorem holdsLock_of_mid (mid : List Event)
    (h : ∀ e ∈ mid, e ≠ Event.lock ∧ e ≠ Event.unlock) :
    HoldsLockThroughout ([Event.lock] ++ mid ++ [Event.unlock]) :=
  ⟨mid, by simp, fun hm => (h _ hm).1 rfl, fun hm => (h _ hm).2 rfl⟩

theorem OnStartingTry_events (a : FFmpegInteropMSS) (P seekResult : Int) :
    ∀ e ∈ (OnStartingTry a P seekResult).1, e ≠ Event.lock ∧ e ≠ Event.unlock := by
  intro e he
  unfold OnStartingTry at he
  simp only at he
  split_ifs at he <;> simp at he
  all_goals first
    | (subst he; simp)
    | (rcases he with rfl | ⟨_, _, _, rfl⟩ | rfl <;> simp)

theorem OnSampleRequested_mid_events (a : FFmpegInteropMSS) (d : IMediaStreamDescriptor)
    (getSampleResult : SampleProvider → Option Int) :
    ∀ e ∈ (OnSampleRequestedTry a d getSampleResult).1
        ++ (match (OnSampleRequestedTry a d getSampleResult).2 with
            | none => []
            | some hr =>
                if hr == MF_E_END_OF_STREAM then
                  a.m_streamIdMap.map (fun e => Event.notifyEOF e.2)
                else [Event.notifyError .Other]),
      e ≠ Event.lock ∧ e ≠ Event.unlock := by
  intro e he
  unfold OnSampleRequestedTry at he
  cases hlook : a.m_streamDescriptorMap.lookup d with
  | none =>
      have hb : E_BOUNDS ≠ MF_E_END_OF_STREAM := by decide
      simp [hlook, hb] at he
      subst he
      simp
  | some p =>
      cases hres : getSampleResult p with
      | none =>
          simp [hlook, hres] at he
          subst he
          simp
      | some hr =>
          by_cases heos : hr = MF_E_END_OF_STREAM
          · simp [hlook, hres, heos] at he
            rcases he with rfl | ⟨_, _, _, rfl⟩ <;> simp
          · simp [hlook, hres, heos] at he
            rcases he with rfl | rfl <;> simp

theorem OnSwitchStreamsRequested_mid_events (a : FFmpegInteropMSS)
    (old new : Option IMediaStreamDescriptor) :
    ∀ e ∈ (OnSwitchStreamsRequestedTry a old new).1
        ++ (match (OnSwitchStreamsRequestedTry a old new).2 with
            | none => []
            | some _ => [Event.notifyError .Other]),
      e ≠ Event.lock ∧ e ≠ Event.unlock := by
  intro e he
  unfold OnSwitchStreamsRequestedTry at he
  rcases old with _ | dold <;> rcases new with _ | dn
  · simp at he
  · cases hn : a.m_streamDescriptorMap.lookup dn <;> simp [hn] at he <;> subst he <;> simp
  · cases ho : a.m_streamDescriptorMap.lookup dold <;> simp [ho] at he <;> subst he <;> simp
  · cases ho : a.m_streamDescriptorMap.lookup dold <;>
      cases hn : a.m_streamDescriptorMap.lookup dn <;> simp [ho, hn] at he
    all_goals first
      | (subst he; simp)
      | (rcases he with rfl | rfl <;> simp)

/-- C9, as stated, fails: on the resume path (null start position) `OnStarting` does
not acquire `m_lock` at all. -/
theorem C9_counterexample :
    ¬ ((OnStarting exampleAdapter none 0).count Event.lock = 1) ∧
      ¬ HoldsLockThroughout (OnStarting exampleAdapter none 0) :=
  ⟨by decide, fun ⟨_, h, _⟩ => by simp [OnStarting] at h⟩

/-- C9, amended: `OnSampleRequested`, `OnSwitchStreamsRequested` and `OnClosed` on every
invocation, and `OnStarting` on every invocation with a non-null start position, acquire
`m_lock` exactly once, before any action other than reading the event arguments and
logging, and hold it until the handler returns.  `OnStarting` with a null start position
(resume) performs no other action than these and does not acquire `m_lock`. -/
theorem C9_lock_discipline (a : FFmpegInteropMSS) (P seekResult : Int)
    (d : IMediaStreamDescriptor) (getSampleResult : SampleProvider → Option Int)
    (old new : Option IMediaStreamDescriptor) :
    HoldsLockThroughout (OnStarting a (some P) seekResult) ∧
      HoldsLockThroughout (OnSampleRequested a d getSampleResult) ∧
      HoldsLockThroughout (OnSwitchStreamsRequested a old new) ∧
      HoldsLockThroughout (OnClosed a) ∧
      OnStarting a none seekResult = [] := by
  refine ⟨?_, ?_, ?_, ?_, rfl⟩
  · have h : OnStarting a (some P) seekResult =
        [Event.lock] ++ ((OnStartingTry a P seekResult).1
          ++ (match (OnStartingTry a P seekResult).2 with
              | none => []
              | some _ => [Event.notifyError .Other])) ++ [Event.unlock] := by
      simp [OnStarting]
    rw [h]
    apply holdsLock_of_mid
    intro e he
    rcases List.mem_append.mp he with he | he
    · exact OnStartingTry_events a P seekResult e he
    · cases hres : (OnStartingTry a P seekResult).2 <;> simp [hres] at he
      subst he
      simp
  · have h : OnSampleRequested a d getSampleResult =
        [Event.lock] ++ ((OnSampleRequestedTry a d getSampleResult).1
          ++ (match (OnSampleRequestedTry a d getSampleResult).2 with
              | none => []
              | some hr =>
                  if hr == MF_E_END_OF_STREAM then
                    a.m_streamIdMap.map (fun e => Event.notifyEOF e.2)
                  else [Event.notifyError .Other])) ++ [Event.unlock] := by
      simp [OnSampleRequested]
    rw [h]
    exact holdsLock_of_mid _ (OnSampleRequested_mid_events a d getSampleResult)
  · have h : OnSwitchStreamsRequested a old new =
        [Event.lock] ++ ((OnSwitchStreamsRequestedTry a old new).1
          ++ (match (OnSwitchStreamsRequestedTry a old new).2 with
              | none => []
              | some _ => [Event.notifyError .Other])) ++ [Event.unlock] := by
      simp [OnSwitchStreamsRequested]
    rw [h]
    exact holdsLock_of_mid _ (OnSwitchStreamsRequested_mid_events a old new)
  · exact ⟨[Event.releaseFileStream, Event.unregisterHandler .Starting,
      Event.unregisterHandler .SampleRequested, Event.unregisterHandler .SwitchStreamsRequested,
      Event.unregisterHandler .Closed], rfl, by simp, by simp⟩

end FFmpegInterop
